import Mathlib

/-!
Shallow embedding of the progress-tracking engine of `textual_progress`
(`src/textual_progress/task.py`).

Floating-point numbers and wall-clock timestamps are modelled as rationals
(`ℚ`); every operation that reads the clock (`time()`) takes the current
time `now : ℚ` as an explicit argument.  The CSS state classes used by the
code (`pending`, `active`, `complete`, `indeterminate`, `failed`) are
modelled as a record of booleans; `add_class`/`remove_class` become record
updates.  Textual's reactive attributes are modelled explicitly: assigning
a reactive attribute fires its watcher exactly when the new value differs
from the old one, and the watcher's notification of the parent container
is returned as a boolean alongside the new state.
-/

namespace TextualProgress

/-- The CSS state classes a `Task` node can carry
(`pending`, `active`, `complete`, `indeterminate`, `failed`). -/
@[ext]
structure Classes where
  pending : Bool
  active : Bool
  complete : Bool
  indeterminate : Bool
  failed : Bool
deriving Repr, DecidableEq

/-- Leaf task state: the fields of `Task` in `task.py`.
`hasParent` models `isinstance(self.parent, Tasks)`. -/
@[ext]
structure Task where
  title : String
  completed : ℚ
  total : Option ℚ
  start_time : Option ℚ
  last_updated : Option ℚ
  stop_time : Option ℚ
  finished_time : Option ℚ
  samples : List (ℚ × ℚ)
  classes : Classes
  transfer_unit : Option String
  transfer_total_size : Option Int
  hasParent : Bool
deriving Repr, DecidableEq

/-- Python truthiness of a float: `0.0` is falsy, everything else truthy. -/
def pyTruthy (q : ℚ) : Bool := q != 0

/-- `Task.percentage`: `None` if `total` is `None` or `0`, otherwise
`min(1.0, max(0.0, completed / total))`. -/
def Task.percentage (t : Task) : Option ℚ :=
  match t.total with
  | none => none
  | some tot => if tot = 0 then none else some (min 1 (max 0 (t.completed / tot)))

/-- `Task.indeterminate`: `total is None`. -/
def Task.indeterminate (t : Task) : Bool := t.total.isNone

/-- `Task.finished`: `has_class("complete") or has_class("failed")`. -/
def Task.finished (t : Task) : Bool := t.classes.complete || t.classes.failed

/-- `Task.remaining`: `None` if indeterminate, else `max(0.0, total - completed)`. -/
def Task.remaining (t : Task) : Option ℚ :=
  match t.total with
  | none => none
  | some tot => some (max 0 (tot - t.completed))

/-- The state classes computed by `Task._update_state_classes`: all five
classes are removed, then exactly one of `indeterminate`, `pending`,
`complete`, `active` is added back (`failed` is never re-added here). -/
def stateClasses (t : Task) : Classes :=
  if t.indeterminate then ⟨false, false, false, true, false⟩
  else if t.completed = 0 then ⟨true, false, false, false, false⟩
  else
    match t.percentage with
    | some p =>
      if pyTruthy p && decide (1 ≤ p) then ⟨false, false, true, false, false⟩
      else ⟨false, true, false, false, false⟩
    | none => ⟨false, true, false, false, false⟩

/-- `Task._update_state_classes` only mutates the CSS classes. -/
def Task.updateStateClasses (t : Task) : Task :=
  { t with classes := stateClasses t }

/-- `Task._add_sample(completed)`: keep the last 999 samples and append
`(now, completed)` (the `completed` recorded is the task's current value). -/
def Task.addSample (t : Task) (now : ℚ) : Task :=
  { t with samples := t.samples.drop (t.samples.length - 999) ++ [(now, t.completed)] }

/-- `Task.watch_completed`: sets `last_updated = now`, appends a sample,
recomputes the state classes, and reports whether the parent container
was notified (`isinstance(self.parent, Tasks)`). -/
def Task.watchCompleted (t : Task) (now : ℚ) : Task × Bool :=
  let t1 := { t with last_updated := some now }
  let t2 := (t1.addSample now).updateStateClasses
  (t2, t2.hasParent)

/-- Assignment to the reactive `completed` attribute: the watcher fires
exactly when the value changes. -/
def Task.setCompleted (t : Task) (v : ℚ) (now : ℚ) : Task × Bool :=
  if v = t.completed then ({ t with completed := v }, false)
  else Task.watchCompleted { t with completed := v } now

/-- `Task.watch_total`: sets `start_time = now` when the new total is not
`None` and `start_time` is unset, then recomputes state classes and
notifies the parent. -/
def Task.watchTotal (t : Task) (now : ℚ) : Task × Bool :=
  let t1 :=
    if t.total.isSome && t.start_time.isNone then { t with start_time := some now } else t
  let t2 := t1.updateStateClasses
  (t2, t2.hasParent)

/-- Assignment to the reactive `total` attribute. -/
def Task.setTotal (t : Task) (v : Option ℚ) (now : ℚ) : Task × Bool :=
  if v = t.total then ({ t with total := v }, false)
  else Task.watchTotal { t with total := v } now

/-- `Task.advance(amount)`: `self.completed += amount` (no validation). -/
def Task.advance (t : Task) (amount : ℚ) (now : ℚ) : Task × Bool :=
  t.setCompleted (t.completed + amount) now

/-- `Task.reset()`: `completed = 0` (possibly firing the watcher), clear
the four timestamps, reseed the sample window, recompute state classes. -/
def Task.reset (t : Task) (now : ℚ) : Task :=
  let t1 := (t.setCompleted 0 now).1
  let t2 := { t1 with start_time := none, last_updated := none, stop_time := none,
                      finished_time := none, samples := [(now, 0)] }
  t2.updateStateClasses

/-- `Task.complete()`: `completed = total` when total is present, stamp
`finished_time = now`, `stop_time = now` if unset, remove the
`pending`/`active`/`failed` classes and add `complete`. -/
def Task.complete (t : Task) (now : ℚ) : Task :=
  let t1 :=
    match t.total with
    | some tot => (t.setCompleted tot now).1
    | none => t
  let t2 := { t1 with finished_time := some now }
  let t3 := if t2.stop_time.isNone then { t2 with stop_time := some now } else t2
  { t3 with classes :=
      { t3.classes with pending := false, active := false, failed := false, complete := true } }

/-- `Task.fail(reason)`: `stop_time = now` if unset, remove the
`pending`/`active`/`complete` classes and add `failed`.
The reason string is ignored by the implementation. -/
def Task.fail (t : Task) (_reason : String) (now : ℚ) : Task :=
  let t1 := if t.stop_time.isNone then { t with stop_time := some now } else t
  { t1 with classes :=
      { t1.classes with pending := false, active := false, complete := false, failed := true } }

/-- First element of a sample list (`recent[0]`), defaulting to `(0, 0)`;
only used where the list is known nonempty. -/
def firstD (l : List (ℚ × ℚ)) : ℚ × ℚ := l.headD (0, 0)

/-- Last element of a sample list (`recent[-1]`), defaulting to `(0, 0)`. -/
def lastD (l : List (ℚ × ℚ)) : ℚ × ℚ := l.getLastD (0, 0)

/-- `Task._calculate_speed`: fewer than 2 samples gives 0; otherwise keep
the samples with timestamp at least `now - 1.0`, falling back to the full
window when fewer than 2 remain; 0 when the time delta is not positive,
else progress delta over time delta. -/
def calculateSpeed (samples : List (ℚ × ℚ)) (now : ℚ) : ℚ :=
  if samples.length < 2 then 0
  else
    let cutoff := now - 1
    let recent := samples.filter fun s => decide (cutoff ≤ s.1)
    let recent2 := if recent.length < 2 then samples else recent
    if recent2.length < 2 then 0
    else
      let timeDelta := (lastD recent2).1 - (firstD recent2).1
      if timeDelta ≤ 0 then 0
      else ((lastD recent2).2 - (firstD recent2).2) / timeDelta

/-- `Task.speed` property. -/
def Task.speed (t : Task) (now : ℚ) : ℚ := calculateSpeed t.samples now

/-- `Task.__init__`: reactive defaults, then assign `title` (no watcher),
assign `total` (firing `watch_total` when it changes), store the transfer
metadata, and seed the sample window with `[(now, 0.0)]`. -/
def mkTask (title : String) (total : Option ℚ) (transferUnit : Option String)
    (transferTotalSize : Option Int) (now : ℚ) : Task :=
  let t0 : Task :=
    { title := "", completed := 0, total := none, start_time := none, last_updated := none,
      stop_time := none, finished_time := none, samples := [],
      classes := ⟨false, false, false, false, false⟩,
      transfer_unit := none, transfer_total_size := none, hasParent := false }
  let t1 := { t0 with title := title }
  let t2 := (t1.setTotal total now).1
  let t3 := { t2 with transfer_unit := transferUnit, transfer_total_size := transferTotalSize }
  { t3 with samples := [(now, 0)] }

/-- The aggregated reactive fields of the `Tasks` container. -/
@[ext]
structure Agg where
  completed : ℚ
  total : Option ℚ
  percentage : Option ℚ
  speed : ℚ
  elapsed : Option ℚ
  time_remaining : Option ℚ
  remaining : Option ℚ
  finished : Bool
  indeterminate : Bool
deriving Repr, DecidableEq

/-- `Tasks._update_aggregated_values`, as a pure function of the ordered
child list (the values of the insertion-ordered child dict) and the
current time. -/
def updateAggregatedValues (children : List Task) (now : ℚ) : Agg :=
  match children with
  | [] =>
    { completed := 0, total := none, percentage := none, speed := 0, elapsed := none,
      time_remaining := none, remaining := none, finished := false, indeterminate := true }
  | _ :: _ =>
    let completed := (children.map Task.completed).sum
    let anyNone := (children.map Task.total).any Option.isNone
    let tot := ((children.map Task.total).filterMap id).sum
    let total : Option ℚ := if anyNone then none else some tot
    let indeterminate := anyNone
    let percentage : Option ℚ :=
      if anyNone then none
      else if 0 < tot then some (min 1 (completed / tot)) else some 1
    let remaining : Option ℚ :=
      if anyNone then none
      else if 0 < tot then some (max 0 (tot - completed)) else some 0
    let speed := (children.map fun c => calculateSpeed c.samples now).sum
    let startTimes := children.filterMap fun c =>
      c.start_time.bind fun s => if s = 0 then none else some s
    let elapsed : Option ℚ := startTimes.min?.map fun earliest => now - earliest
    let timeRemaining : Option ℚ :=
      if 0 < speed then remaining.map fun r => r / speed else none
    let finished := children.all Task.finished
    { completed := completed, total := total, percentage := percentage, speed := speed,
      elapsed := elapsed, time_remaining := timeRemaining, remaining := remaining,
      finished := finished, indeterminate := indeterminate }

/-- The key Python's `max(active, key=lambda c: c.last_updated or 0)` compares:
`last_updated` when set and truthy, `0` otherwise. -/
def luKey (c : Task) : ℚ := c.last_updated.getD 0

/-- A child qualifies for `current_task`:
`last_updated is not None and completed > 0`. -/
def qualifies (c : Task) : Bool := c.last_updated.isSome && decide (0 < c.completed)

/-- Python's `max(x :: xs, key=luKey)`: a left fold that replaces the
current best only on a strictly greater key, so the first maximum wins. -/
def maxByLu (x : Task) (xs : List Task) : Task :=
  xs.foldl (fun best c => if luKey best < luKey c then c else best) x

/-- `Tasks.current_task`, as a pure function of the container title and
the ordered child list. -/
def currentTask (title : String) (children : List Task) : String :=
  match children with
  | [] => title
  | _ :: _ =>
    match children.filter qualifies with
    | [] => title
    | x :: xs => (maxByLu x xs).title

/-- `c` has a weakly maximal key among the tasks of `l`. -/
def wmax (l : List Task) (c : Task) : Bool := l.all fun d => decide (luKey d ≤ luKey c)

/-- Spec-side rendering of the `currentTaskTitle` sentence: among the
qualifying children (in insertion order), the first one whose
`last_updated` is at least every other qualifier's — i.e. the latest
`last_updated`, ties broken in favor of the earliest-inserted child — and
the container's own title when none qualify. -/
def currentTaskSpec (title : String) (children : List Task) : String :=
  let q := children.filter qualifies
  match q.find? (wmax q) with
  | some c => c.title
  | none => title

/-- Spec-side rendering of the `rate()` sentence of the claim: the
contiguous suffix of samples with timestamp within 1.0 second of the
newest sample's timestamp, full-window fallback below 2 samples, 0 on a
short window or non-positive time delta, else the progress delta over the
time delta. -/
def rateClaimed (samples : List (ℚ × ℚ)) : ℚ :=
  match samples.getLast? with
  | none => 0
  | some newest =>
    let suffix := (samples.reverse.takeWhile fun s => decide (newest.1 - 1 ≤ s.1)).reverse
    let chosen := if suffix.length < 2 then samples else suffix
    if chosen.length < 2 then 0
    else
      let timeDelta := (lastD chosen).1 - (firstD chosen).1
      if timeDelta ≤ 0 then 0
      else ((lastD chosen).2 - (firstD chosen).2) / timeDelta

/-- Spec-side rendering of the amended `rate()` sentence: the samples with
timestamp within 1.0 second of the current time at the call, full-window
fallback below 2 samples, 0 on a short window or non-positive time delta,
else the progress delta over the time delta. -/
def rateAmended (samples : List (ℚ × ℚ)) (now : ℚ) : ℚ :=
  let chosen0 := samples.filter fun s => decide (now - 1 ≤ s.1)
  let chosen := if chosen0.length < 2 then samples else chosen0
  if chosen.length < 2 then 0
  else
    let timeDelta := (lastD chosen).1 - (firstD chosen).1
    if timeDelta ≤ 0 then 0
    else ((lastD chosen).2 - (firstD chosen).2) / timeDelta

/-! ### Helper lemmas -/

theorem setCompleted_fst_completed (t : Task) (v now : ℚ) :
    ((t.setCompleted v now).1).completed = v := by
  unfold Task.setCompleted Task.watchCompleted Task.addSample Task.updateStateClasses
  split <;> rfl

theorem setCompleted_fst_total (t : Task) (v now : ℚ) :
    ((t.setCompleted v now).1).total = t.total := by
  unfold Task.setCompleted Task.watchCompleted Task.addSample Task.updateStateClasses
  split <;> rfl

theorem setCompleted_fst_start_time (t : Task) (v now : ℚ) :
    ((t.setCompleted v now).1).start_time = t.start_time := by
  unfold Task.setCompleted Task.watchCompleted Task.addSample Task.updateStateClasses
  split <;> rfl

theorem setCompleted_fst_stop_time (t : Task) (v now : ℚ) :
    ((t.setCompleted v now).1).stop_time = t.stop_time := by
  unfold Task.setCompleted Task.watchCompleted Task.addSample Task.updateStateClasses
  split <;> rfl

theorem setCompleted_fst_finished_time (t : Task) (v now : ℚ) :
    ((t.setCompleted v now).1).finished_time = t.finished_time := by
  unfold Task.setCompleted Task.watchCompleted Task.addSample Task.updateStateClasses
  split <;> rfl

theorem setCompleted_fst_title (t : Task) (v now : ℚ) :
    ((t.setCompleted v now).1).title = t.title := by
  unfold Task.setCompleted Task.watchCompleted Task.addSample Task.updateStateClasses
  split <;> rfl

theorem setCompleted_fst_transfer_unit (t : Task) (v now : ℚ) :
    ((t.setCompleted v now).1).transfer_unit = t.transfer_unit := by
  unfold Task.setCompleted Task.watchCompleted Task.addSample Task.updateStateClasses
  split <;> rfl

theorem setCompleted_fst_transfer_total_size (t : Task) (v now : ℚ) :
    ((t.setCompleted v now).1).transfer_total_size = t.transfer_total_size := by
  unfold Task.setCompleted Task.watchCompleted Task.addSample Task.updateStateClasses
  split <;> rfl

theorem setCompleted_fst_hasParent (t : Task) (v now : ℚ) :
    ((t.setCompleted v now).1).hasParent = t.hasParent := by
  unfold Task.setCompleted Task.watchCompleted Task.addSample Task.updateStateClasses
  split <;> rfl

/-- When the assigned value differs from the current one, the watcher runs. -/
theorem setCompleted_of_ne (t : Task) (v now : ℚ) (h : v ≠ t.completed) :
    t.setCompleted v now = Task.watchCompleted { t with completed := v } now := by
  unfold Task.setCompleted
  simp [h]

/-- `advance` adds `amount` to `completed`, whether or not the watcher fires. -/
theorem advance_completed (t : Task) (amount now : ℚ) :
    ((t.advance amount now).1).completed = t.completed + amount := by
  unfold Task.advance
  exact setCompleted_fst_completed t (t.completed + amount) now

/-- `_update_state_classes` never adds the `failed` class back. -/
theorem stateClasses_failed (t : Task) : (stateClasses t).failed = false := by
  unfold stateClasses
  repeat' split
  all_goals rfl

/-- After a value-changing `advance`, the recomputed state classes do not
contain `failed`. -/
theorem advance_failed_false (t : Task) (amount now : ℚ) (hamt : amount ≠ 0) :
    ((t.advance amount now).1).classes.failed = false := by
  unfold Task.advance
  rw [setCompleted_of_ne _ _ _ fun h => hamt (add_right_eq_self.mp h)]
  unfold Task.watchCompleted Task.addSample Task.updateStateClasses
  exact stateClasses_failed _

theorem fail_completed (t : Task) (r : String) (now : ℚ) :
    (t.fail r now).completed = t.completed := by
  unfold Task.fail
  split <;> rfl

theorem fail_failed (t : Task) (r : String) (now : ℚ) :
    (t.fail r now).classes.failed = true := by
  unfold Task.fail
  split <;> rfl

/-! ### Claim theorems -/

/-- Claim C1 counterexample: a pending (non-terminal) tracker with
`total = 10` gains the `complete` state class from `advance(10)` alone,
with no `complete()` call. -/
theorem c1_counterexample :
    (mkTask "t" (some 10) none none 0).finished = false ∧
    (((mkTask "t" (some 10) none none 0).advance 10 1).1).classes.complete = true := by
  constructor <;>
    norm_num [mkTask, Task.setTotal, Task.watchTotal, Task.updateStateClasses, stateClasses,
      Task.advance, Task.setCompleted, Task.watchCompleted, Task.addSample, Task.finished,
      Task.percentage, Task.indeterminate, pyTruthy, Option.some_ne_none]

/-- Claim C1 amended: a value-changing `advance` whose resulting
`completed / total` reaches 1.0 (with `total` present and nonzero) by
itself transitions the tracker's state to Complete — the state-class
recompute adds the `complete` class without any `complete()` call. -/
theorem c1_auto_complete (t : Task) (amount now tot : ℚ) (htot : t.total = some tot)
    (hne : tot ≠ 0) (hamt : amount ≠ 0) (hp : 1 ≤ (t.completed + amount) / tot) :
    ((t.advance amount now).1).classes.complete = true := by
  have hv0 : t.completed + amount ≠ 0 := by
    intro h0
    rw [h0, zero_div] at hp
    exact absurd hp (by norm_num)
  have hmax : max 0 ((t.completed + amount) / tot) = (t.completed + amount) / tot :=
    max_eq_right (le_trans zero_le_one hp)
  have hmin : min 1 ((t.completed + amount) / tot) = 1 := min_eq_left hp
  unfold Task.advance
  rw [setCompleted_of_ne _ _ _ fun h => hamt (add_right_eq_self.mp h)]
  unfold Task.watchCompleted Task.addSample Task.updateStateClasses
  simp [stateClasses, Task.indeterminate, Task.percentage, htot, hne, hv0, hmax, hmin, pyTruthy]

/-- Witness for the amended C1 at a concrete tracker. -/
theorem c1_witness :
    (mkTask "t" (some 10) none none 0).total = some 10 ∧
    (((mkTask "t" (some 10) none none 0).advance 10 1).1).classes.complete = true := by
  refine ⟨?_, c1_auto_complete _ 10 1 10 ?_ (by norm_num) (by norm_num) ?_⟩
  · norm_num [mkTask, Task.setTotal, Task.watchTotal, Task.updateStateClasses, stateClasses,
      Option.some_ne_none]
  · norm_num [mkTask, Task.setTotal, Task.watchTotal, Task.updateStateClasses, stateClasses,
      Option.some_ne_none]
  · norm_num [mkTask, Task.setTotal, Task.watchTotal, Task.updateStateClasses, stateClasses,
      Option.some_ne_none]

/-- Claim C2 counterexample: after `fail` the tracker carries the `failed`
class, but a subsequent `advance(5)` updates `completed` to 8 and removes
the `failed` class — the state does not remain Failed. -/
theorem c2_counterexample :
    ((((mkTask "t" (some 10) none none 0).advance 3 1).1).fail "disk full" 2).classes.failed
      = true ∧
    (((((mkTask "t" (some 10) none none 0).advance 3 1).1).fail "disk full" 2).advance 5 3).1.completed
      = 8 ∧
    (((((mkTask "t" (some 10) none none 0).advance 3 1).1).fail "disk full" 2).advance 5 3).1.classes.failed
      = false := by
  refine ⟨?_, ?_, ?_⟩ <;>
    norm_num [mkTask, Task.setTotal, Task.watchTotal, Task.updateStateClasses, stateClasses,
      Task.advance, Task.setCompleted, Task.watchCompleted, Task.addSample, Task.fail,
      Task.percentage, Task.indeterminate, pyTruthy, Option.some_ne_none]

/-- Claim C2 amended: from Active, `fail` yields the `failed` class with
`finished = true` and `completed` unchanged; a subsequent value-changing
`advance(amount)` updates `completed` by `amount` but recomputes the state
from the new values, removing the `failed` class. -/
theorem c2_fail_then_advance (t : Task) (reason : String) (n1 : ℚ)
    (_hact : t.classes.active = true) (amount n2 : ℚ) (hamt : amount ≠ 0) :
    (t.fail reason n1).classes.failed = true ∧
    (t.fail reason n1).finished = true ∧
    (t.fail reason n1).completed = t.completed ∧
    ((t.fail reason n1).advance amount n2).1.completed = t.completed + amount ∧
    ((t.fail reason n1).advance amount n2).1.classes.failed = false := by
  refine ⟨fail_failed t reason n1, ?_, fail_completed t reason n1, ?_, ?_⟩
  · unfold Task.finished
    rw [fail_failed t reason n1]
    exact Bool.or_true _
  · rw [advance_completed, fail_completed]
  · exact advance_failed_false _ amount n2 hamt

/-- Witness for the amended C2 at a concrete tracker. -/
theorem c2_witness :
    ((((mkTask "t" (some 10) none none 0).advance 3 1).1).fail "disk full" 2).classes.failed
      = true ∧
    ((((mkTask "t" (some 10) none none 0).advance 3 1).1).fail "disk full" 2).finished = true ∧
    ((((mkTask "t" (some 10) none none 0).advance 3 1).1).fail "disk full" 2).completed
      = ((mkTask "t" (some 10) none none 0).advance 3 1).1.completed ∧
    (((((mkTask "t" (some 10) none none 0).advance 3 1).1).fail "disk full" 2).advance 5 3).1.completed
      = ((mkTask "t" (some 10) none none 0).advance 3 1).1.completed + 5 ∧
    (((((mkTask "t" (some 10) none none 0).advance 3 1).1).fail "disk full" 2).advance 5 3).1.classes.failed
      = false :=
  c2_fail_then_advance ((mkTask "t" (some 10) none none 0).advance 3 1).1 "disk full" 2
    (by norm_num [mkTask, Task.setTotal, Task.watchTotal, Task.updateStateClasses, stateClasses,
      Task.advance, Task.setCompleted, Task.watchCompleted, Task.addSample,
      Task.percentage, Task.indeterminate, pyTruthy, Option.some_ne_none])
    5 3 (by norm_num)

/-- Claim C3 counterexample: `advance(-1)` on a fresh tracker does not fail
with `InvalidArgument`; it modifies the tracker, driving `completed` from
`0` to `-1`. -/
theorem c3_counterexample :
    (mkTask "t" (some 10) none none 0).completed = 0 ∧
    (((mkTask "t" (some 10) none none 0).advance (-1) 1).1).completed = -1 := by
  constructor <;>
    norm_num [mkTask, Task.setTotal, Task.watchTotal, Task.updateStateClasses, stateClasses,
      Task.advance, Task.setCompleted, Task.watchCompleted, Task.addSample,
      Task.percentage, Task.indeterminate, pyTruthy, Option.some_ne_none]

/-- Claim C3 amended: `advance(amount)` performs no validation at all —
for every amount (negative included) it simply adds `amount` to
`completed` and never fails. -/
theorem c3_advance_no_validation (t : Task) (amount now : ℚ) :
    ((t.advance amount now).1).completed = t.completed + amount :=
  advance_completed t amount now

/-- Claim C4 counterexample: on a tracker whose `start_time` is unset, a
valid `advance(5)` leaves `start_time` unset — it is not stamped to `now`. -/
theorem c4_counterexample :
    (mkTask "t" none none none 0).start_time = none ∧
    (((mkTask "t" none none none 0).advance 5 1).1).start_time = none ∧
    (((mkTask "t" none none none 0).advance 5 1).1).start_time ≠ some 1 := by
  have h2 : (((mkTask "t" none none none 0).advance 5 1).1).start_time = none := by
    norm_num [mkTask, Task.setTotal, Task.watchTotal, Task.updateStateClasses, stateClasses,
      Task.advance, Task.setCompleted, Task.watchCompleted, Task.addSample,
      Task.percentage, Task.indeterminate, pyTruthy, Option.some_ne_none]
  refine ⟨?_, h2, ?_⟩
  · norm_num [mkTask, Task.setTotal, Task.watchTotal, Task.updateStateClasses, stateClasses,
      Option.some_ne_none]
  · rw [h2]
    exact fun hh => Option.noConfusion hh

/-- Claim C4 amended: a value-changing `advance(amount)` (`amount > 0`)
adds `amount` to `completed`, appends the sample `(now, completed)` to the
window (keeping the last 999 prior samples), sets `lastUpdated = now`, and
notifies the owning container exactly when one exists; `startTime` is left
unchanged (it is stamped by `total` assignment, not by `advance`). -/
theorem c4_advance_effects (t : Task) (amount now : ℚ) (h : 0 < amount) :
    ((t.advance amount now).1).completed = t.completed + amount ∧
    ((t.advance amount now).1).samples
      = t.samples.drop (t.samples.length - 999) ++ [(now, t.completed + amount)] ∧
    ((t.advance amount now).1).last_updated = some now ∧
    ((t.advance amount now).1).start_time = t.start_time ∧
    (t.advance amount now).2 = t.hasParent := by
  unfold Task.advance
  rw [setCompleted_of_ne _ _ _ fun hh => absurd (add_right_eq_self.mp hh) (ne_of_gt h)]
  unfold Task.watchCompleted Task.addSample Task.updateStateClasses
  exact ⟨rfl, rfl, rfl, rfl, rfl⟩

/-- Witness for the amended C4 at a concrete tracker. -/
theorem c4_witness :
    (((mkTask "t" none none none 0).advance 5 1).1).completed
      = (mkTask "t" none none none 0).completed + 5 ∧
    (((mkTask "t" none none none 0).advance 5 1).1).samples
      = (mkTask "t" none none none 0).samples.drop
          ((mkTask "t" none none none 0).samples.length - 999)
        ++ [(1, (mkTask "t" none none none 0).completed + 5)] ∧
    (((mkTask "t" none none none 0).advance 5 1).1).last_updated = some 1 ∧
    (((mkTask "t" none none none 0).advance 5 1).1).start_time
      = (mkTask "t" none none none 0).start_time ∧
    ((mkTask "t" none none none 0).advance 5 1).2 = (mkTask "t" none none none 0).hasParent :=
  c4_advance_effects (mkTask "t" none none none 0) 5 1 (by norm_num)

/-- Claim C6 counterexample: on the window
`[(0,0), (4,4), (4.5,8), (5,9)]` read at time `5.2`, the code computes a
rate of 2 from the samples within 1 second of the current time, while the
claimed rule (within 1 second of the newest sample's timestamp) gives 5. -/
theorem c6_counterexample :
    calculateSpeed [(0, 0), (4, 4), (9 / 2, 8), (5, 9)] (26 / 5) = 2 ∧
    rateClaimed [(0, 0), (4, 4), (9 / 2, 8), (5, 9)] = 5 ∧
    (2 : ℚ) ≠ 5 := by
  refine ⟨?_, ?_, by norm_num⟩
  · norm_num [calculateSpeed, lastD, firstD, List.filter]
  · norm_num [rateClaimed, lastD, firstD, List.takeWhile, List.getLast?]

/-- Claim C6 amended: `rate()` is computed over the samples whose
timestamp is within 1.0 second of the current time at the call (not of
the newest sample's timestamp); if fewer than 2 such samples exist it
falls back to the full window; it returns 0 when the chosen set has fewer
than 2 samples or a non-positive time delta, and otherwise the progress
delta over the time delta. -/
theorem c6_speed_refines (samples : List (ℚ × ℚ)) (now : ℚ) :
    calculateSpeed samples now = rateAmended samples now := by
  unfold calculateSpeed rateAmended
  by_cases h : samples.length < 2
  · have hf : (samples.filter fun s => decide (now - 1 ≤ s.1)).length < 2 :=
      lt_of_le_of_lt (List.length_filter_le _ _) h
    simp only [if_pos h, if_pos hf]
  · simp only [if_neg h]

theorem complete_total (t : Task) (n : ℚ) : (t.complete n).total = t.total := by
  unfold Task.complete
  split <;> (dsimp only; split <;> simp_all [setCompleted_fst_total])

theorem complete_completed (t : Task) (n : ℚ) :
    (t.complete n).completed = t.total.getD t.completed := by
  unfold Task.complete
  split <;> (dsimp only; split <;> simp_all [setCompleted_fst_completed])

theorem complete_finished_time (t : Task) (n : ℚ) :
    (t.complete n).finished_time = some n := by
  unfold Task.complete
  split <;> (dsimp only; split <;> rfl)

theorem complete_stop_time (t : Task) (n : ℚ) :
    (t.complete n).stop_time = some (t.stop_time.getD n) := by
  unfold Task.complete
  split <;> (dsimp only; split <;> cases hst : t.stop_time <;>
    simp_all [setCompleted_fst_stop_time])

theorem complete_classes_proj (t : Task) (n : ℚ) :
    (t.complete n).classes.pending = false ∧ (t.complete n).classes.active = false ∧
    (t.complete n).classes.failed = false ∧ (t.complete n).classes.complete = true := by
  unfold Task.complete
  exact ⟨rfl, rfl, rfl, rfl⟩

/-- A tracker already in the state `complete()` leaves it in is changed by
a second `complete()` call only in its `finished_time` stamp. -/
theorem complete_restamp (u : Task) (n' : ℚ) (s : ℚ)
    (hc : u.completed = u.total.getD u.completed)
    (hs : u.stop_time = some s)
    (hp : u.classes.pending = false) (ha : u.classes.active = false)
    (hf : u.classes.failed = false) (hcc : u.classes.complete = true) :
    u.complete n' = { u with finished_time := some n' } := by
  have hcl :
      { u.classes with pending := false, active := false, failed := false, complete := true }
        = u.classes := by
    ext <;> simp [hp, ha, hf, hcc]
  unfold Task.complete
  cases htot : u.total with
  | none => simp [hs, hcl, htot]
  | some tot =>
    have hcu : tot = u.completed := by
      rw [htot] at hc
      simpa using hc.symm
    simp [Task.setCompleted, hcu, hs, hcl, htot]

/-- Claim C5 counterexample: a second `complete()` on an already-Complete
tracker re-stamps `finished_time` to the new current time — it is not a
no-op. -/
theorem c5_counterexample :
    ((mkTask "x" (some 10) none none 0).complete 1).finished_time = some 1 ∧
    (((mkTask "x" (some 10) none none 0).complete 1).complete 2).finished_time = some 2 ∧
    (some (1 : ℚ)) ≠ some 2 := by
  refine ⟨?_, ?_, by simp⟩ <;>
    norm_num [mkTask, Task.setTotal, Task.watchTotal, Task.updateStateClasses, stateClasses,
      Task.complete, Task.setCompleted, Task.watchCompleted, Task.addSample,
      Task.percentage, Task.indeterminate, pyTruthy, Option.some_ne_none]

/-- Claim C5 amended: `complete()` sets `completed = total` when `total`
is present, adds the `complete` class, stamps `finished_time = now` and
`stop_time = now` if unset; a repeated call on the resulting tracker
re-stamps `finished_time` to the new current time and changes nothing
else. -/
theorem c5_complete_effects (t : Task) (n n' : ℚ) :
    (t.complete n).classes.complete = true ∧
    (t.complete n).finished_time = some n ∧
    (t.complete n).stop_time = some (t.stop_time.getD n) ∧
    (t.complete n).completed = t.total.getD t.completed ∧
    (t.complete n).complete n' = { t.complete n with finished_time := some n' } := by
  obtain ⟨hp, ha, hf, hcc⟩ := complete_classes_proj t n
  refine ⟨hcc, complete_finished_time t n, complete_stop_time t n, complete_completed t n, ?_⟩
  apply complete_restamp (t.complete n) n' (t.stop_time.getD n) ?_ (complete_stop_time t n)
    hp ha hf hcc
  rw [complete_completed, complete_total]
  cases t.total <;> simp

/-- Claim C9: `percentage` never divides by zero — it is `None` whenever
`total` is absent or zero, and equals the clamped quotient
`min 1 (max 0 (completed / total))` exactly when `total` is present and
nonzero. -/
theorem c9_percentage_division_guard (t : Task) :
    (t.total = none ∨ t.total = some 0 → t.percentage = none) ∧
    ∀ tot : ℚ, t.total = some tot → tot ≠ 0 →
      t.percentage = some (min 1 (max 0 (t.completed / tot))) := by
  constructor
  · rintro (h | h) <;> simp [Task.percentage, h]
  · intro tot h hne
    simp [Task.percentage, h, hne]

/-- Witness for C9 at concrete trackers: an indeterminate tracker has no
percentage, and a tracker at 0 of 4 has percentage 0. -/
theorem c9_witness :
    (mkTask "a" none none none 0).percentage = none ∧
    (mkTask "b" (some 4) none none 0).percentage = some 0 := by
  constructor
  · exact (c9_percentage_division_guard _).1 (Or.inl (by decide))
  · have h := (c9_percentage_division_guard (mkTask "b" (some 4) none none 0)).2 4
      (by decide) (by norm_num)
    have hc : (mkTask "b" (some 4) none none 0).completed = 0 := by decide
    rw [h, hc]
    norm_num

/-- Claim C7: after a recompute, the container is indeterminate exactly
when it has no children or some child has `total` absent; and the empty
container aggregates to
`completed = 0`, `total`/`percentage`/`elapsed`/`timeRemaining`/`remaining`
absent, `speed = 0`, `finished = false`, `indeterminate = true`. -/
theorem c7_container_indeterminate (children : List Task) (now : ℚ) :
    ((updateAggregatedValues children now).indeterminate = true ↔
      children = [] ∨ ∃ c ∈ children, c.total = none) ∧
    updateAggregatedValues [] now =
      { completed := 0, total := none, percentage := none, speed := 0, elapsed := none,
        time_remaining := none, remaining := none, finished := false, indeterminate := true } := by
  refine ⟨?_, rfl⟩
  cases children with
  | nil => simp [updateAggregatedValues]
  | cons c cs =>
    simp [updateAggregatedValues, List.any_eq_true, Option.isNone_iff_eq_none]

/-- Witness for C7 at concrete containers: a container holding one
indeterminate child is indeterminate, and the empty container aggregates
to the documented record. -/
theorem c7_witness :
    (updateAggregatedValues [mkTask "a" none none none 0] 1).indeterminate = true ∧
    updateAggregatedValues [] 1 =
      { completed := 0, total := none, percentage := none, speed := 0, elapsed := none,
        time_remaining := none, remaining := none, finished := false, indeterminate := true } := by
  constructor
  · exact (c7_container_indeterminate [mkTask "a" none none none 0] 1).1.mpr
      (Or.inr ⟨mkTask "a" none none none 0, List.mem_singleton.mpr rfl, by decide⟩)
  · exact (c7_container_indeterminate [] 1).2

/-! ### `current_task` selection (Claim C8) -/

/-- Every element of `x :: xs` has key at most that of `maxByLu x xs`. -/
theorem le_luKey_maxByLu : ∀ (xs : List Task) (x d : Task), d ∈ x :: xs →
    luKey d ≤ luKey (maxByLu x xs) := by
  intro xs
  induction xs with
  | nil =>
    intro x d hd
    rw [List.mem_singleton.mp hd]
    exact le_rfl
  | cons c t ih =>
    intro x d hd
    have hunf : maxByLu x (c :: t) = maxByLu (if luKey x < luKey c then c else x) t := rfl
    rcases List.mem_cons.mp hd with rfl | hd'
    · by_cases hlt : luKey d < luKey c
      · rw [hunf, if_pos hlt]
        exact le_trans (le_of_lt hlt) (ih c c (List.mem_cons_self c t))
      · rw [hunf, if_neg hlt]
        exact ih d d (List.mem_cons_self d t)
    · rcases List.mem_cons.mp hd' with rfl | hd''
      · by_cases hlt : luKey x < luKey d
        · rw [hunf, if_pos hlt]
          exact ih d d (List.mem_cons_self d t)
        · rw [hunf, if_neg hlt]
          exact le_trans (not_lt.mp hlt) (ih x x (List.mem_cons_self x t))
      · by_cases hlt : luKey x < luKey c
        · rw [hunf, if_pos hlt]
          exact ih c d (List.mem_cons_of_mem c hd'')
        · rw [hunf, if_neg hlt]
          exact ih x d (List.mem_cons_of_mem x hd'')

theorem wmax_iff (l : List Task) (c : Task) :
    wmax l c = true ↔ ∀ d ∈ l, luKey d ≤ luKey c := by
  simp [wmax]

/-- Dropping the head of the candidate list does not change the weak-max
predicate when some later element dominates the head. -/
theorem wmax_cons_drop_left (x c : Task) (t : List Task) (h : luKey x ≤ luKey c) (a : Task) :
    wmax (x :: c :: t) a = wmax (c :: t) a := by
  unfold wmax
  by_cases hca : luKey c ≤ luKey a
  · have hxa : luKey x ≤ luKey a := le_trans h hca
    simp [List.all_cons, hca, hxa]
  · simp [List.all_cons, hca]

/-- Dropping a dominated second element does not change the weak-max
predicate. -/
theorem wmax_drop_mid (x c : Task) (t : List Task) (h : luKey c ≤ luKey x) (a : Task) :
    wmax (x :: c :: t) a = wmax (x :: t) a := by
  unfold wmax
  by_cases hxa : luKey x ≤ luKey a
  · have hca : luKey c ≤ luKey a := le_trans h hxa
    simp [List.all_cons, hxa, hca]
  · simp [List.all_cons, hxa]

/-- The first element of the list whose key weakly dominates the whole
list is exactly Python's `max` (first maximum wins). -/
theorem find?_wmax : ∀ (xs : List Task) (x : Task),
    (x :: xs).find? (wmax (x :: xs)) = some (maxByLu x xs) := by
  intro xs
  induction xs with
  | nil =>
    intro x
    have hx : wmax [x] x = true := (wmax_iff [x] x).mpr (by simp)
    rw [List.find?_cons_of_pos _ hx]
    rfl
  | cons c t ih =>
    intro x
    have hunf : maxByLu x (c :: t) = maxByLu (if luKey x < luKey c then c else x) t := rfl
    by_cases hlt : luKey x < luKey c
    · rw [hunf, if_pos hlt]
      have hw : wmax (x :: c :: t) = wmax (c :: t) :=
        funext (wmax_cons_drop_left x c t (le_of_lt hlt))
      rw [hw]
      have hx : ¬ wmax (c :: t) x = true := by
        rw [wmax_iff]
        intro hall
        exact absurd (hall c (List.mem_cons_self c t)) (not_le.mpr hlt)
      rw [List.find?_cons_of_neg _ hx]
      exact ih c
    · have hle : luKey c ≤ luKey x := not_lt.mp hlt
      rw [hunf, if_neg hlt]
      have hw : wmax (x :: c :: t) = wmax (x :: t) := funext (wmax_drop_mid x c t hle)
      rw [hw]
      by_cases hx : wmax (x :: t) x = true
      · rw [List.find?_cons_of_pos _ hx]
        have hih := ih x
        rw [List.find?_cons_of_pos _ hx] at hih
        exact hih
      · rw [List.find?_cons_of_neg _ hx]
        have hc : ¬ wmax (x :: t) c = true := by
          rw [wmax_iff]
          intro hall
          apply hx
          rw [wmax_iff]
          intro d hd
          have hxc : luKey x = luKey c :=
            le_antisymm (hall x (List.mem_cons_self x t)) hle
          calc luKey d ≤ luKey c := hall d hd
            _ = luKey x := hxc.symm
        rw [List.find?_cons_of_neg _ hc]
        have hih := ih x
        rw [List.find?_cons_of_neg _ hx] at hih
        exact hih

/-- Claim C8: `current_task` selects, among children with `last_updated`
present and `completed > 0`, the child with the latest `last_updated`,
ties broken in favor of the earliest-inserted child, and returns its
title; when no child qualifies it returns the container's own title. -/
theorem c8_current_task (title : String) (children : List Task) :
    currentTask title children = currentTaskSpec title children := by
  unfold currentTask currentTaskSpec
  cases children with
  | nil => rfl
  | cons c cs =>
    cases hq : (c :: cs).filter qualifies with
    | nil => simp [hq]
    | cons x xs =>
      simp only [hq, find?_wmax xs x]

/-- Claim C10: `reset()` leaves `title`, `total` and the transfer metadata
(`transfer_unit`, `transfer_total_size`) unchanged. -/
theorem c10_reset_frame (t : Task) (now : ℚ) :
    (t.reset now).title = t.title ∧ (t.reset now).total = t.total ∧
    (t.reset now).transfer_unit = t.transfer_unit ∧
    (t.reset now).transfer_total_size = t.transfer_total_size := by
  unfold Task.reset Task.updateStateClasses
  refine ⟨?_, ?_, ?_, ?_⟩
  · exact setCompleted_fst_title t 0 now
  · exact setCompleted_fst_total t 0 now
  · exact setCompleted_fst_transfer_unit t 0 now
  · exact setCompleted_fst_transfer_total_size t 0 now

end TextualProgress
